import Mathlib

/-!
Shallow embedding of the "Numbers" spreadsheet core (address codec, cell
store, formula evaluator, recalculation engine, value formatter, range
aggregator), translated from the jQuery application source.

JavaScript strings are modelled as lists of UTF-16 code units
(`List Nat`): the source manipulates strings through `charCodeAt`,
`String.fromCharCode` and regular expressions over code units, so this
representation is the direct one.  JavaScript numbers are modelled as
exact rationals extended with the special values `Infinity`, `-Infinity`
and `NaN`; IEEE-754 rounding of doubles and the negative zero are not
modelled (no statement below depends on them).
-/

set_option maxHeartbeats 1000000
set_option maxRecDepth 4000

namespace Numbers

/-- Code-unit list of a Lean string literal (all literals used are in the
Latin-1 range, where UTF-16 code units coincide with code points). -/
def jstr (s : String) : List Nat := s.toList.map Char.toNat

/-- CONFIG object of the application: default and maximum grid dimensions. -/
structure Config where
  defaultRows : Nat
  defaultCols : Nat
  maxRows : Nat
  maxCols : Nat

/-- const CONFIG = { defaultRows: 50, defaultCols: 26, maxRows: 1000, maxCols: 52 } -/
def CONFIG : Config := { defaultRows := 50, defaultCols := 26, maxRows := 1000, maxCols := 52 }

/-- Membership in the regex class [A-Z] (uppercase letter code unit). -/
def isUpperCode (c : Nat) : Bool := 65 ≤ c && c ≤ 90

/-- Membership in the regex class [0-9], the same as \d (digit code unit). -/
def isDigitCode (c : Nat) : Bool := 48 ≤ c && c ≤ 57

/-- JavaScript white-space code units skipped by parseFloat and allowed
between expression tokens (space, tab, LF, VT, FF, CR, NBSP). -/
def isWSCode (c : Nat) : Bool :=
  c = 32 || c = 9 || c = 10 || c = 11 || c = 12 || c = 13 || c = 160

/-- Numeric value of an all-digit code-unit list, as computed by
`parseInt` on a string that the regex has already constrained to \d+
(accumulator form of positional decimal reading). -/
def parseIntDigits (ds : List Nat) : Nat :=
  ds.foldl (fun a d => a * 10 + (d - 48)) 0

/-- Decimal rendering of a natural number (the `String(n)` coercion for a
non-negative integer).  The fuel argument bounds the recursion depth;
`natToString` supplies `n + 1`, which exceeds the number of digits. -/
def natToStringAux : Nat → Nat → List Nat
  | 0, _ => []
  | fuel + 1, n => if n < 10 then [48 + n] else natToStringAux fuel (n / 10) ++ [48 + n % 10]

/-- String(n) for a natural number n. -/
def natToString (n : Nat) : List Nat := natToStringAux (n + 1) n

/-- String(i) for an integer i (sign followed by the decimal digits). -/
def intToString (i : Int) : List Nat :=
  if i < 0 then 45 :: natToString (-i).toNat else natToString i.toNat

/-- colToLetter: repeatedly prepend the letter for `col % 26` and continue
with `floor(col / 26) - 1` while the index is non-negative.  The fuel
argument bounds the loop; `colToLetter` supplies `col + 1`, which exceeds
the number of iterations because the index shrinks at every step. -/
def colToLetterAux : Nat → Nat → List Nat
  | 0, _ => []
  | fuel + 1, col =>
    if col < 26 then [65 + col % 26]
    else colToLetterAux fuel (col / 26 - 1) ++ [65 + col % 26]

/-- colToLetter on a non-negative column index (column 0 is "A"). -/
def colToLetter (col : Nat) : List Nat := colToLetterAux (col + 1) col

/-- colToLetter on an arbitrary integer: for a negative index the source
loop body never runs and the empty string is returned. -/
def colToLetterInt (col : Int) : List Nat :=
  if col < 0 then [] else colToLetter col.toNat

/-- letterToCol: fold `col = col * 26 + (charCode - 64)` over the letters,
then subtract one.  Stated over `Int` exactly as the source computes. -/
def letterToCol (letter : List Nat) : Int :=
  letter.foldl (fun (col : Int) (ch : Nat) => col * 26 + ((ch : Int) - 64)) 0 - 1

/-- Result object of parseCellId: 0-based column and row indices. -/
structure CellAddress where
  col : Int
  row : Int
deriving DecidableEq

/-- getCellId(row, col) = colToLetter(col) + String(row + 1). -/
def getCellId (row col : Int) : List Nat :=
  colToLetterInt col ++ intToString (row + 1)

/-- parseCellId: match ^([A-Z]+)(\d+)$ and return
{ col: letterToCol(letters), row: parseInt(digits) - 1 }, or null on any
other shape.  The greedy letter run followed by the digit run is exactly
the decomposition the anchored regex produces. -/
def parseCellId (cellId : List Nat) : Option CellAddress :=
  let letters := cellId.takeWhile isUpperCode
  let rest := cellId.drop letters.length
  if !letters.isEmpty && !rest.isEmpty && rest.all isDigitCode then
    some { col := letterToCol letters, row := (parseIntDigits rest : Int) - 1 }
  else none

/-- JavaScript number: an exact rational or one of the special values. -/
inductive JSNum where
  | num (q : ℚ)
  | posInf
  | negInf
  | nan
deriving DecidableEq

/-- Unary minus on numbers. -/
def jsNeg : JSNum → JSNum
  | .num q => .num (-q)
  | .posInf => .negInf
  | .negInf => .posInf
  | .nan => .nan

/-- IEEE-style addition on the extended domain. -/
def jsAdd : JSNum → JSNum → JSNum
  | .nan, _ => .nan
  | _, .nan => .nan
  | .num a, .num b => .num (a + b)
  | .posInf, .negInf => .nan
  | .negInf, .posInf => .nan
  | .posInf, _ => .posInf
  | _, .posInf => .posInf
  | .negInf, _ => .negInf
  | _, .negInf => .negInf

/-- Subtraction, as addition of the negation (equivalent on this domain). -/
def jsSub (a b : JSNum) : JSNum := jsAdd a (jsNeg b)

/-- IEEE-style multiplication on the extended domain. -/
def jsMul : JSNum → JSNum → JSNum
  | .nan, _ => .nan
  | _, .nan => .nan
  | .num a, .num b => .num (a * b)
  | .num a, .posInf => if 0 < a then .posInf else if a < 0 then .negInf else .nan
  | .num a, .negInf => if 0 < a then .negInf else if a < 0 then .posInf else .nan
  | .posInf, .num b => if 0 < b then .posInf else if b < 0 then .negInf else .nan
  | .negInf, .num b => if 0 < b then .negInf else if b < 0 then .posInf else .nan
  | .posInf, .posInf => .posInf
  | .posInf, .negInf => .negInf
  | .negInf, .posInf => .negInf
  | .negInf, .negInf => .posInf

/-- IEEE-style division on the extended domain (negative zero is not
modelled, so division of a non-zero finite value by zero takes the sign
of the numerator, as in the source where zero only arises positively). -/
def jsDiv : JSNum → JSNum → JSNum
  | .nan, _ => .nan
  | _, .nan => .nan
  | .num a, .num b =>
    if b = 0 then (if 0 < a then .posInf else if a < 0 then .negInf else .nan)
    else .num (a / b)
  | .num _, .posInf => .num 0
  | .num _, .negInf => .num 0
  | .posInf, .num b => if b < 0 then .negInf else .posInf
  | .negInf, .num b => if b < 0 then .posInf else .negInf
  | .posInf, _ => .nan
  | .negInf, _ => .nan

/-- Math.min on two values: NaN propagates, otherwise the smaller value. -/
def jsMin : JSNum → JSNum → JSNum
  | .nan, _ => .nan
  | _, .nan => .nan
  | .num a, .num b => .num (min a b)
  | .posInf, b => b
  | a, .posInf => a
  | .negInf, _ => .negInf
  | _, .negInf => .negInf

/-- Math.max on two values: NaN propagates, otherwise the larger value. -/
def jsMax : JSNum → JSNum → JSNum
  | .nan, _ => .nan
  | _, .nan => .nan
  | .num a, .num b => .num (max a b)
  | .negInf, b => b
  | a, .negInf => a
  | .posInf, _ => .posInf
  | _, .posInf => .posInf

/-- Exact rational value of an integer digit run and a fraction digit run. -/
def decimalValue (ip fp : List Nat) : ℚ :=
  (parseIntDigits ip : ℚ) + (parseIntDigits fp : ℚ) / (10 : ℚ) ^ fp.length

/-- Magnitude part of parseFloat, after white space and an optional sign
have been consumed: either the literal `Infinity`, or decimal digits with
optional fraction and exponent; NaN when no numeric prefix exists. -/
def parseFloatCore (s : List Nat) (pos : Bool) : JSNum :=
  if s.take 8 = jstr ("Infinity") then (if pos then .posInf else .negInf)
  else
    let ip := s.takeWhile isDigitCode
    let r1 := s.drop ip.length
    let fp :=
      match r1 with
      | 46 :: t => t.takeWhile isDigitCode
      | _ => []
    let r2 :=
      match r1 with
      | 46 :: t => t.drop (t.takeWhile isDigitCode).length
      | _ => r1
    if ip.isEmpty && fp.isEmpty then .nan
    else
      let e : Int :=
        match r2 with
        | c :: t =>
          if c = 101 || c = 69 then
            let esign : Int := match t with | 45 :: _ => -1 | _ => 1
            let t2 := match t with | 43 :: u => u | 45 :: u => u | _ => t
            let ed := t2.takeWhile isDigitCode
            if ed.isEmpty then 0 else esign * parseIntDigits ed
          else 0
        | [] => 0
      let q := decimalValue ip fp * (10 : ℚ) ^ e
      .num (if pos then q else -q)

/-- parseFloat on a string: skip white space, read an optional sign, then
the longest numeric prefix; NaN when none exists. -/
def parseFloat (s : List Nat) : JSNum :=
  let t := s.dropWhile isWSCode
  match t with
  | 43 :: u => parseFloatCore u true
  | 45 :: u => parseFloatCore u false
  | u => parseFloatCore u true

/-- Fraction digits of a rational in [0, 1).  JavaScript prints the
shortest decimal that round-trips the double, which is the exact
(terminating) expansion for every value printed by this application; the
fuel cuts off a non-terminating expansion, which a double cannot have. -/
def fracDigitsAux : Nat → ℚ → List Nat
  | 0, _ => []
  | fuel + 1, q =>
    if q = 0 then []
    else
      let d := (⌊q * 10⌋).toNat
      (48 + d) :: fracDigitsAux fuel (q * 10 - (d : ℚ))

/-- String(q) for a finite number: sign, integer digits, and the decimal
expansion of the fractional part when it is non-zero. -/
def ratToString (q : ℚ) : List Nat :=
  let sign : List Nat := if q < 0 then [45] else []
  let x := |q|
  let ipart := (⌊x⌋).toNat
  let fpart := x - (ipart : ℚ)
  sign ++ natToString ipart ++ (if fpart = 0 then [] else 46 :: fracDigitsAux 1100 fpart)

/-- String coercion of a number, as used when a replacement callback
returns a number that is spliced back into the formula text. -/
def numToString : JSNum → List Nat
  | .num q => ratToString q
  | .posInf => jstr ("Infinity")
  | .negInf => jstr ("-Infinity")
  | .nan => jstr ("NaN")

/-- Left-pad a digit run with zeros to the requested width. -/
def padLeftZeros (w : Nat) (ds : List Nat) : List Nat :=
  List.replicate (w - ds.length) 48 ++ ds

/-- Number.prototype.toFixed(f): sign of the value followed by the
magnitude rounded to f fraction digits, ties away from zero (the source
applies it to exact results, where this agrees with the double-based
rounding of the engine). -/
def toFixedNum (f : Nat) : JSNum → List Nat
  | .nan => jstr ("NaN")
  | .posInf => jstr ("Infinity")
  | .negInf => jstr ("-Infinity")
  | .num q =>
    let sign : List Nat := if q < 0 then [45] else []
    let n := (⌊|q| * (10 : ℚ) ^ f + 1 / 2⌋).toNat
    if f = 0 then sign ++ natToString n
    else sign ++ natToString (n / 10 ^ f) ++ [46] ++ padLeftZeros f (natToString (n % 10 ^ f))

/-- Group a reversed digit run in threes with the sv-SE group separator
(no-break space, U+00A0). -/
def groupDigitsRev (l : List Nat) : List Nat :=
  match l with
  | a :: b :: c :: rest =>
    if rest.isEmpty then l else a :: b :: c :: 160 :: groupDigitsRev rest
  | l => l

/-- Insert the sv-SE thousands separators into a digit run. -/
def groupDigits (ds : List Nat) : List Nat := (groupDigitsRev ds.reverse).reverse

/-- toLocaleString('sv-SE', two fraction digits): minus sign U+2212,
grouped integer digits, decimal comma, two fraction digits;
the special values render as NaN and the infinity sign U+221E. -/
def svFixed2 : JSNum → List Nat
  | .nan => jstr ("NaN")
  | .posInf => [8734]
  | .negInf => [8722, 8734]
  | .num q =>
    let sign : List Nat := if q < 0 then [8722] else []
    let n := (⌊|q| * 100 + 1 / 2⌋).toNat
    sign ++ groupDigits (natToString (n / 100)) ++ [44] ++ padLeftZeros 2 (natToString (n % 100))

/-- toLocaleString('sv-SE', style currency, SEK): the fixed two-digit
rendering followed by a no-break space and "kr". -/
def svCurrency (x : JSNum) : List Nat := svFixed2 x ++ [160, 107, 114]

/-- A stored JavaScript value: a string or a number. -/
inductive JSValue where
  | str (s : List Nat)
  | num (n : JSNum)
deriving DecidableEq

/-- parseFloat applied to a stored value.  JavaScript coerces a number
argument to its string rendering and reparses it; on numbers `String`
and `parseFloat` are mutually inverse, so the numeric case is the
identity. -/
def parseFloatValue : JSValue → JSNum
  | .str s => parseFloat s
  | .num n => n

/-- The format record of a cell: {} is `none`, { type } is `some`. -/
inductive FormatKind where
  | number
  | currency
  | percent
deriving DecidableEq

/-- A cell record {value, formula, format, displayValue}; `displayValue`
is absent (undefined) until first computed, and an empty `formula` string
means the cell holds no formula. -/
structure CellRec where
  value : JSValue
  formula : List Nat
  format : Option FormatKind
  displayValue : Option JSValue
deriving DecidableEq

/-- The record a cell is initialised with: { value: '', formula: '', format: {} }. -/
def emptyCellRec : CellRec :=
  { value := .str [], formula := [], format := none, displayValue := none }

/-- state.data: a sparse insertion-ordered mapping from cell label to
cell record (JavaScript object with non-index string keys). -/
abbrev Store := List (List Nat × CellRec)

/-- Read state.data[cellId] (first entry with the key). -/
def lookupCell : Store → List Nat → Option CellRec
  | [], _ => none
  | (k, r) :: rest, key => if k = key then some r else lookupCell rest key

/-- Assign state.data[cellId] = rec: overwrite in place when the key
exists, otherwise append, preserving object key order. -/
def setCell : Store → List Nat → CellRec → Store
  | [], key, rec => [(key, rec)]
  | (k, r) :: rest, key, rec =>
    if k = key then (key, rec) :: rest else (k, r) :: setCell rest key rec

/-- delete state.data[cellId].  Object keys are unique, so on every store
the application builds this equals removing the single entry. -/
def eraseCell (st : Store) (key : List Nat) : Store :=
  st.filter (fun p => !(p.1 = key : Bool))

/-- formatValue(value, format): without a format type return the value
unchanged; otherwise parse it as a number, returning the original value
verbatim when that fails, and render per the format type. -/
def formatValue (value : JSValue) (format : Option FormatKind) : JSValue :=
  match format with
  | none => value
  | some ft =>
    let n := parseFloatValue value
    if n = .nan then value
    else
      match ft with
      | .number => .str (svFixed2 n)
      | .currency => .str (svCurrency n)
      | .percent => .str (toFixedNum 1 (jsMul n (.num 100)) ++ [37])

/-- The integers from lo to hi inclusive (a for-loop range). -/
def intRangeList (lo hi : Int) : List Int :=
  (List.range (hi - lo + 1).toNat).map (fun i => lo + (i : Int))

/-- getRangeValues(start, end): parse both corners (empty list when either
label is malformed), normalise the rectangle, and collect parseFloat of
every stored cell value in row-major order, skipping missing cells and
cells whose value does not parse as a number. -/
def getRangeValues (st : Store) (s e : List Nat) : List JSNum :=
  match parseCellId s, parseCellId e with
  | some sp, some ep =>
    ((intRangeList (min sp.row ep.row) (max sp.row ep.row)).map (fun r =>
      (intRangeList (min sp.col ep.col) (max sp.col ep.col)).filterMap (fun c =>
        match lookupCell st (getCellId r c) with
        | some cd =>
          let p := parseFloatValue cd.value
          if p = .nan then none else some p
        | none => none))).flatten
  | _, _ => []

/-- values.reduce((a, b) => a + b, 0). -/
def sumList (vs : List JSNum) : JSNum := vs.foldl jsAdd (.num 0)

/-- sumRange: the sum of the numeric values in the span (0 when empty). -/
def sumRange (st : Store) (s e : List Nat) : JSNum := sumList (getRangeValues st s e)

/-- avgRange: sum divided by count on a non-empty value set, else 0. -/
def avgRange (st : Store) (s e : List Nat) : JSNum :=
  let values := getRangeValues st s e
  if !values.isEmpty then jsDiv (sumList values) (.num (values.length : ℚ)) else .num 0

/-- minRange: Math.min over the value set (a NaN-propagating fold from
+Infinity, which is Math.min of an argument list) on a non-empty set,
else 0. -/
def minRange (st : Store) (s e : List Nat) : JSNum :=
  let values := getRangeValues st s e
  if !values.isEmpty then values.foldl jsMin .posInf else .num 0

/-- maxRange: Math.max over the value set on a non-empty set, else 0. -/
def maxRange (st : Store) (s e : List Nat) : JSNum :=
  let values := getRangeValues st s e
  if !values.isEmpty then values.foldl jsMax .negInf else .num 0

/-- countRange: the number of numeric values found in the span. -/
def countRange (st : Store) (s e : List Nat) : JSNum :=
  .num ((getRangeValues st s e).length : ℚ)

/-- Match the regex [A-Z]+\d+ anchored at the head of the input: the
maximal uppercase run followed by the maximal (non-empty) digit run.
Backtracking inside the greedy runs can never succeed differently, so
this is the full match the engine finds.  Returns letters, digits and
the remaining input. -/
def matchCellRef (s : List Nat) : Option (List Nat × List Nat × List Nat) :=
  let l := s.takeWhile isUpperCode
  if l.isEmpty then none
  else
    let r := s.drop l.length
    let d := r.takeWhile isDigitCode
    if d.isEmpty then none else some (l, d, r.drop d.length)

/-- Match NAME( ref : ref ) anchored at the head of the input, returning
the two captured labels and the remaining input. -/
def matchAggCall (name : List Nat) (s : List Nat) : Option (List Nat × List Nat × List Nat) :=
  if s.take name.length = name then
    match s.drop name.length with
    | 40 :: r1 =>
      match matchCellRef r1 with
      | some (l1, d1, r2) =>
        match r2 with
        | 58 :: r3 =>
          match matchCellRef r3 with
          | some (l2, d2, r4) =>
            match r4 with
            | 41 :: r5 => some (l1 ++ d1, l2 ++ d2, r5)
            | _ => none
          | none => none
        | _ => none
      | none => none
    | _ => none
  else none

/-- First alternative of the name list that matches at the head of the
input (the regex alternation AVG|AVERAGE tries the names in order; the
names used are never prefixes of one another at a '(' boundary). -/
def matchAggAt : List (List Nat) → List Nat → Option (List Nat × List Nat × List Nat)
  | [], _ => none
  | n :: ns, s =>
    match matchAggCall n s with
    | some r => some r
    | none => matchAggAt ns s

/-- Global regex replacement of NAME(ref:ref) by the string rendering of
the aggregate: left-to-right scan, non-overlapping matches, replacements
not rescanned.  The fuel is the input length; every match consumes at
least one code unit, so the zero-fuel branch is never reached from
`replaceAgg`. -/
def replaceAggAux (st : Store) (names : List (List Nat))
    (f : Store → List Nat → List Nat → JSNum) : Nat → List Nat → List Nat
  | 0, s => s
  | _ + 1, [] => []
  | fuel + 1, c :: rest =>
    match matchAggAt names (c :: rest) with
    | some (a, b, r) => numToString (f st a b) ++ replaceAggAux st names f fuel r
    | none => c :: replaceAggAux st names f fuel rest

/-- expr.replace(/NAME\((ref):(ref)\)/g, (m, a, b) => f(a, b)). -/
def replaceAgg (st : Store) (names : List (List Nat))
    (f : Store → List Nat → List Nat → JSNum) (s : List Nat) : List Nat :=
  replaceAggAux st names f s.length s

/-- The number substituted for a bare cell reference: 0 for the cell
being evaluated, otherwise parseFloat of the stored value (a missing
cell contributes the number 0, which also parses to 0), with NaN
replaced by 0. -/
def refValue (st : Store) (currentCell cellId : List Nat) : JSNum :=
  if cellId = currentCell then .num 0
  else
    let val : JSValue :=
      match lookupCell st cellId with
      | some cd => cd.value
      | none => .num (.num 0)
    let p := parseFloatValue val
    if p = .nan then .num 0 else p

/-- Global replacement of every remaining [A-Z]+\d+ token by the string
rendering of its reference value (same scanning discipline as
`replaceAggAux`). -/
def replaceRefsAux (st : Store) (currentCell : List Nat) : Nat → List Nat → List Nat
  | 0, s => s
  | _ + 1, [] => []
  | fuel + 1, c :: rest =>
    match matchCellRef (c :: rest) with
    | some (l, d, r) => numToString (refValue st currentCell (l ++ d)) ++ replaceRefsAux st currentCell fuel r
    | none => c :: replaceRefsAux st currentCell fuel rest

/-- expr.replace(/([A-Z]+)(\d+)/g, substitution callback). -/
def replaceRefs (st : Store) (currentCell : List Nat) (s : List Nat) : List Nat :=
  replaceRefsAux st currentCell s.length s

/-- String.prototype.toUpperCase on the ASCII letters (the only code
units the formula language distinguishes by case). -/
def jsUpper (s : List Nat) : List Nat :=
  s.map (fun c => if 97 ≤ c && c ≤ 122 then c - 32 else c)

/-- Skip white space between expression tokens. -/
def skipWS (s : List Nat) : List Nat := s.dropWhile isWSCode

/-- A strict-mode decimal numeric literal at the head of the input:
digits with optional fraction and exponent, or a fraction alone; a
leading zero followed by another digit is a syntax error in strict mode,
and an exponent marker without digits invalidates the literal. -/
def parseNumberLit (s : List Nat) : Option (ℚ × List Nat) :=
  let ip := s.takeWhile isDigitCode
  let r1 := s.drop ip.length
  let fp :=
    match r1 with
    | 46 :: t => t.takeWhile isDigitCode
    | _ => []
  let r2 :=
    match r1 with
    | 46 :: t => t.drop (t.takeWhile isDigitCode).length
    | _ => r1
  if ip.isEmpty && fp.isEmpty then none
  else if 2 ≤ ip.length && ip.head? = some 48 then none
  else
    match r2 with
    | c :: t =>
      if c = 101 || c = 69 then
        let esign : Int := match t with | 45 :: _ => -1 | _ => 1
        let t2 := match t with | 43 :: u => u | 45 :: u => u | _ => t
        let ed := t2.takeWhile isDigitCode
        if ed.isEmpty then none
        else some (decimalValue ip fp * (10 : ℚ) ^ (esign * parseIntDigits ed), t2.drop ed.length)
      else some (decimalValue ip fp, r2)
    | [] => some (decimalValue ip fp, [])

mutual

/-- Primary := '(' Expr ')' | 'Infinity' | 'NaN' | NumberLit.  The
identifiers Infinity and NaN are the two global bindings that the
substitution passes can splice into the text. -/
def parsePrimary : Nat → List Nat → Option (JSNum × List Nat)
  | 0, _ => none
  | fuel + 1, s =>
    let s := skipWS s
    match s with
    | 40 :: t =>
      match parseExpr fuel t with
      | some (v, r) =>
        match skipWS r with
        | 41 :: r2 => some (v, r2)
        | _ => none
      | none => none
    | _ =>
      if s.take 8 = jstr ("Infinity") then some (.posInf, s.drop 8)
      else if s.take 3 = jstr ("NaN") then some (.nan, s.drop 3)
      else
        match parseNumberLit s with
        | some (q, r) => some (.num q, r)
        | none => none

/-- Factor := ('+' | '-')* Primary (unary signs). -/
def parseFactor : Nat → List Nat → Option (JSNum × List Nat)
  | 0, _ => none
  | fuel + 1, s =>
    let s := skipWS s
    match s with
    | 45 :: t => (parseFactor fuel t).map (fun p => (jsNeg p.1, p.2))
    | 43 :: t => parseFactor fuel t
    | _ => parsePrimary fuel s

/-- Iterated ('*' | '/') Factor continuations of a term. -/
def parseTermRest : Nat → JSNum → List Nat → Option (JSNum × List Nat)
  | 0, _, _ => none
  | fuel + 1, acc, s =>
    match skipWS s with
    | 42 :: t =>
      match parseFactor fuel t with
      | some (v, r) => parseTermRest fuel (jsMul acc v) r
      | none => none
    | 47 :: t =>
      match parseFactor fuel t with
      | some (v, r) => parseTermRest fuel (jsDiv acc v) r
      | none => none
    | _ => some (acc, s)

/-- Term := Factor (('*' | '/') Factor)*. -/
def parseTerm : Nat → List Nat → Option (JSNum × List Nat)
  | 0, _ => none
  | fuel + 1, s =>
    match parseFactor fuel s with
    | some (v, r) => parseTermRest fuel v r
    | none => none

/-- Iterated ('+' | '-') Term continuations of an expression. -/
def parseExprRest : Nat → JSNum → List Nat → Option (JSNum × List Nat)
  | 0, _, _ => none
  | fuel + 1, acc, s =>
    match skipWS s with
    | 43 :: t =>
      match parseTerm fuel t with
      | some (v, r) => parseExprRest fuel (jsAdd acc v) r
      | none => none
    | 45 :: t =>
      match parseTerm fuel t with
      | some (v, r) => parseExprRest fuel (jsSub acc v) r
      | none => none
    | _ => some (acc, s)

/-- Expr := Term (('+' | '-') Term)*. -/
def parseExpr : Nat → List Nat → Option (JSNum × List Nat)
  | 0, _ => none
  | fuel + 1, s =>
    match parseTerm fuel s with
    | some (v, r) => parseExprRest fuel v r
    | none => none

end

/-- Evaluation of the substituted text by
Function('"use strict"; return (' + expr + ')')(): the arithmetic
fragment the evaluator contract describes (signed decimal literals, the
operators + - * / with parentheses, and the spliced Infinity / NaN
identifiers), with `none` for a syntax error.  Expression forms of full
JavaScript outside this fragment (e.g. **, %, hex literals, the comma
operator, array and string literals) are not modelled: they collapse to
`none` here although the host evaluator accepts them and can then
return values that are neither numbers nor the error marker, so a
`none` hypothesis below speaks about this arithmetic fragment.  The
fuel bounds the recursion depth, which consumes at least one code unit
per four levels, so it never runs out on inputs this length bound
admits. -/
def evalArith (s : List Nat) : Option JSNum :=
  match parseExpr (4 * s.length + 16) s with
  | some (v, r) => if (skipWS r).isEmpty then some v else none
  | none => none

/-- The textual pipeline of evaluateFormula before evaluation: strip the
marker, uppercase, substitute the five aggregate call forms (SUM, then
AVG|AVERAGE, then MIN, MAX, COUNT, each a separate global replace), then
substitute the remaining bare references. -/
def substituteAll (st : Store) (currentCell formula : List Nat) : List Nat :=
  let e := jsUpper (formula.drop 1)
  let e := replaceAgg st [jstr ("SUM")] sumRange e
  let e := replaceAgg st [jstr ("AVG"), jstr ("AVERAGE")] avgRange e
  let e := replaceAgg st [jstr ("MIN")] minRange e
  let e := replaceAgg st [jstr ("MAX")] maxRange e
  let e := replaceAgg st [jstr ("COUNT")] countRange e
  replaceRefs st currentCell e

/-- evaluateFormula(formula, currentCell): substitute, evaluate, and map
a thrown error to '#ERROR'; a NaN result is also mapped to '#ERROR',
while any other number (including the infinities) is returned as the
value. -/
def evaluateFormula (st : Store) (formula currentCell : List Nat) : JSValue :=
  match evalArith (substituteAll st currentCell formula) with
  | none => .str (jstr ("#ERROR"))
  | some r => if r = .nan then .str (jstr ("#ERROR")) else .num r

/-- One body of the recalculateAll loop: when the cell holds a formula,
re-evaluate it against the current store and refresh value and
displayValue. -/
def recalcCell (st : Store) (cellId : List Nat) : Store :=
  match lookupCell st cellId with
  | some cd =>
    if !cd.formula.isEmpty then
      let v := evaluateFormula st cd.formula cellId
      setCell st cellId { cd with value := v, displayValue := some (formatValue v cd.format) }
    else st
  | none => st

/-- recalculateAll: one pass over Object.keys(state.data) in insertion
order, re-evaluating every formula cell against the store as already
updated by the earlier iterations of the same pass. -/
def recalculateAll (st : Store) : Store :=
  (st.map Prod.fst).foldl recalcCell st

/-- finishEditing(cellId, value), restricted to the store: ensure the
record exists, classify the input as formula (leading '=') or literal
text, store the fields in source order (the formula is stored before the
evaluator runs, so it is kept verbatim whatever the result), then run
the full recalculation pass. -/
def finishEditing (st : Store) (cellId value : List Nat) : Store :=
  let cd0 := (lookupCell st cellId).getD emptyCellRec
  let st1 := setCell st cellId cd0
  if value.head? = some 61 then
    let cd1 := { cd0 with formula := value }
    let st2 := setCell st1 cellId cd1
    let v := evaluateFormula st2 value cellId
    let cd2 := { cd1 with value := v }
    let cd3 := { cd2 with displayValue := some (formatValue v cd2.format) }
    recalculateAll (setCell st2 cellId cd3)
  else
    let cd1 := { cd0 with
      formula := ([] : List Nat),
      value := .str value,
      displayValue := some (formatValue (.str value) cd0.format) }
    recalculateAll (setCell st1 cellId cd1)

/-- The Delete/Backspace handler on the store: remove the entry entirely,
then recalculate. -/
def deleteCellEdit (st : Store) (cellId : List Nat) : Store :=
  recalculateAll (eraseCell st cellId)

/-- applyFormat(type) on the selected cell: create the record if absent
(with empty value), overwrite only the format, and recompute
displayValue from the unchanged value. -/
def applyFormat (st : Store) (cellId : List Nat) (ft : FormatKind) : Store :=
  let cd0 := (lookupCell st cellId).getD emptyCellRec
  let cd := { cd0 with
    format := some ft,
    displayValue := some (formatValue cd0.value (some ft)) }
  setCell st cellId cd

/-- The grid-owning part of the application state. -/
structure GridState where
  title : List Nat
  data : Store
  rows : Int
  cols : Int
deriving DecidableEq

/-- A parsed snapshot object: every field may be absent. An integer-valued
rows/cols is the only shape the application itself ever writes. -/
structure Snapshot where
  title : Option (List Nat)
  data : Option Store
  rows : Option Int
  cols : Option Int

/-- Falsy-or-default on an optional string: the empty string is falsy,
so it also falls back (the `x || fallback` idiom). -/
def strOrDefault (o : Option (List Nat)) (fallback : List Nat) : List Nat :=
  match o with
  | some t => if t.isEmpty then fallback else t
  | none => fallback

/-- Falsy-or-default on an optional integer: 0 is falsy, so it falls
back; any other value, in or out of the grid bounds, is kept verbatim. -/
def intOrDefault (o : Option Int) (fallback : Int) : Int :=
  match o with
  | some r => if r = 0 then fallback else r
  | none => fallback

/-- loadFromLocalStorage: `none` models both an absent key and a JSON
parse failure (the catch leaves the state untouched); otherwise every
field is restored with the `||`-default, with no bounds check on the
dimensions. -/
def loadFromLocalStorage (saved : Option Snapshot) (st : GridState) : GridState :=
  match saved with
  | none => st
  | some d =>
    { title := strOrDefault d.title (jstr ("Namnlöst kalkylark")),
      data := d.data.getD [],
      rows := intOrDefault d.rows (CONFIG.defaultRows : Int),
      cols := intOrDefault d.cols (CONFIG.defaultCols : Int) }

/-- A virtual-filesystem file: a name and an optional parsed content. -/
structure FSFile where
  name : List Nat
  content : Option Snapshot

/-- str.replace(pat, '') for a plain-string pattern: remove the first
occurrence.  Fuel is the input length; each step consumes a code unit. -/
def replaceFirstEmptyAux (pat : List Nat) : Nat → List Nat → List Nat
  | 0, s => s
  | _ + 1, [] => []
  | fuel + 1, c :: rest =>
    if (c :: rest).take pat.length = pat then (c :: rest).drop pat.length
    else c :: replaceFirstEmptyAux pat fuel rest

/-- str.replace(pat, '') on the whole string. -/
def replaceFirstEmpty (s pat : List Nat) : List Nat :=
  replaceFirstEmptyAux pat s.length s

/-- loadFromFilesystem, restricted to the state it restores: nothing
happens without a file or content (including on a thrown error);
otherwise the same `||`-defaulting as the local-storage path, with the
title falling back to the file name without its ".numbers" suffix. -/
def loadFromFilesystem (file : Option FSFile) (st : GridState) : GridState :=
  match file with
  | none => st
  | some f =>
    match f.content with
    | none => st
    | some c =>
      { title := strOrDefault c.title (replaceFirstEmpty f.name (jstr (".numbers"))),
        data := c.data.getD [],
        rows := intOrDefault c.rows (CONFIG.defaultRows : Int),
        cols := intOrDefault c.cols (CONFIG.defaultCols : Int) }

/-- The four toolbar resize actions. -/
inductive GridOp where
  | addRow
  | addCol
  | delRow
  | delCol
deriving DecidableEq

/-- The click handlers: growing clamps at the configured maximum via
Math.min, shrinking is guarded by a `> 1` test and otherwise leaves the
count at the lower bound. -/
def applyGridOp (st : GridState) : GridOp → GridState
  | .addRow => { st with rows := min (st.rows + 1) (CONFIG.maxRows : Int) }
  | .addCol => { st with cols := min (st.cols + 1) (CONFIG.maxCols : Int) }
  | .delRow => { st with rows := if 1 < st.rows then st.rows - 1 else st.rows }
  | .delCol => { st with cols := if 1 < st.cols then st.cols - 1 else st.cols }

/-- The state the application starts from before any snapshot load. -/
def initialState : GridState :=
  { title := jstr ("Namnlöst kalkylark"),
    data := [],
    rows := (CONFIG.defaultRows : Int),
    cols := (CONFIG.defaultCols : Int) }

/-! ### Lemmas about the address codec -/

lemma colToLetterAux_mem : ∀ fuel col, col < fuel →
    ∀ ch ∈ colToLetterAux fuel col, 65 ≤ ch ∧ ch ≤ 90 := by
  intro fuel
  induction fuel with
  | zero => omega
  | succ n ih =>
    intro col hcol ch hch
    rw [colToLetterAux] at hch
    by_cases h : col < 26
    · simp only [if_pos h, List.mem_singleton] at hch
      have : col % 26 < 26 := Nat.mod_lt _ (by omega)
      omega
    · simp only [if_neg h, List.mem_append, List.mem_singleton] at hch
      rcases hch with hch | hch
      · have hlt : col / 26 - 1 < n := by
          have := Nat.div_lt_self (show 0 < col by omega) (show 1 < 26 by omega)
          omega
        exact ih _ hlt ch hch
      · have : col % 26 < 26 := Nat.mod_lt _ (by omega)
        omega

lemma colToLetterAux_ne_nil : ∀ fuel col, col < fuel → colToLetterAux fuel col ≠ [] := by
  intro fuel
  induction fuel with
  | zero => omega
  | succ n ih =>
    intro col hcol
    rw [colToLetterAux]
    by_cases h : col < 26
    · simp [h]
    · simp [h]

lemma colToLetterAux_val : ∀ fuel col, col < fuel →
    (colToLetterAux fuel col).foldl (fun a c => a * 26 + (c - 64)) 0 = col + 1 := by
  intro fuel
  induction fuel with
  | zero => omega
  | succ n ih =>
    intro col hcol
    rw [colToLetterAux]
    by_cases h : col < 26
    · simp only [if_pos h, List.foldl_cons, List.foldl_nil]
      omega
    · have hlt : col / 26 - 1 < n := by
        have := Nat.div_lt_self (show 0 < col by omega) (show 1 < 26 by omega)
        omega
      simp only [if_neg h, List.foldl_append, List.foldl_cons, List.foldl_nil]
      rw [ih _ hlt]
      have h1 : 1 ≤ col / 26 := (Nat.one_le_div_iff (by omega)).mpr (by omega)
      omega

lemma colToLetter_mem (c : Nat) : ∀ ch ∈ colToLetter c, 65 ≤ ch ∧ ch ≤ 90 :=
  colToLetterAux_mem (c + 1) c (Nat.lt_succ_self c)

lemma colToLetter_ne_nil (c : Nat) : colToLetter c ≠ [] :=
  colToLetterAux_ne_nil (c + 1) c (Nat.lt_succ_self c)

lemma foldl_letterVal_int (l : List Nat) (h : ∀ ch ∈ l, 64 ≤ ch) : ∀ a : Nat,
    l.foldl (fun (col : Int) (ch : Nat) => col * 26 + ((ch : Int) - 64)) (a : Int)
      = ((l.foldl (fun a c => a * 26 + (c - 64)) a : Nat) : Int) := by
  induction l with
  | nil => intro a; simp
  | cons ch t ih =>
    intro a
    have h1 : 64 ≤ ch := h ch (by simp)
    have h2 : ∀ x ∈ t, 64 ≤ x := fun x hx => h x (by simp [hx])
    simp only [List.foldl_cons]
    have heq : ((a : Int) * 26 + ((ch : Int) - 64)) = ((a * 26 + (ch - 64) : Nat) : Int) := by
      omega
    rw [heq]
    exact ih h2 (a * 26 + (ch - 64))

lemma letterToCol_colToLetter (c : Nat) : letterToCol (colToLetter c) = (c : Int) := by
  have hmem : ∀ ch ∈ colToLetter c, 64 ≤ ch := fun ch hch => by
    have := colToLetter_mem c ch hch
    omega
  have hval := colToLetterAux_val (c + 1) c (Nat.lt_succ_self c)
  rw [letterToCol]
  have := foldl_letterVal_int (colToLetter c) hmem 0
  simp only [Nat.cast_zero] at this
  rw [this]
  rw [show (colToLetter c).foldl (fun a ch => a * 26 + (ch - 64)) 0 = c + 1 from hval]
  omega

lemma natToStringAux_digits : ∀ fuel n, n < fuel →
    ∀ ch ∈ natToStringAux fuel n, 48 ≤ ch ∧ ch ≤ 57 := by
  intro fuel
  induction fuel with
  | zero => omega
  | succ m ih =>
    intro n hn ch hch
    rw [natToStringAux] at hch
    by_cases h : n < 10
    · simp only [if_pos h, List.mem_singleton] at hch
      omega
    · simp only [if_neg h, List.mem_append, List.mem_singleton] at hch
      rcases hch with hch | hch
      · have hlt : n / 10 < m := by
          have := Nat.div_lt_self (show 0 < n by omega) (show 1 < 10 by omega)
          omega
        exact ih _ hlt ch hch
      · have : n % 10 < 10 := Nat.mod_lt _ (by omega)
        omega

lemma natToStringAux_ne_nil : ∀ fuel n, n < fuel → natToStringAux fuel n ≠ [] := by
  intro fuel
  induction fuel with
  | zero => omega
  | succ m ih =>
    intro n hn
    rw [natToStringAux]
    by_cases h : n < 10
    · simp [h]
    · simp [h]

lemma parseIntDigits_natToStringAux : ∀ fuel n, n < fuel →
    parseIntDigits (natToStringAux fuel n) = n := by
  intro fuel
  induction fuel with
  | zero => omega
  | succ m ih =>
    intro n hn
    rw [natToStringAux]
    by_cases h : n < 10
    · simp only [if_pos h, parseIntDigits, List.foldl_cons, List.foldl_nil]
      omega
    · have hlt : n / 10 < m := by
        have := Nat.div_lt_self (show 0 < n by omega) (show 1 < 10 by omega)
        omega
      simp only [if_neg h, parseIntDigits, List.foldl_append, List.foldl_cons, List.foldl_nil]
      have := ih _ hlt
      rw [parseIntDigits] at this
      rw [this]
      have : n % 10 < 10 := Nat.mod_lt _ (by omega)
      omega

lemma natToString_digits (n : Nat) : ∀ ch ∈ natToString n, 48 ≤ ch ∧ ch ≤ 57 :=
  natToStringAux_digits (n + 1) n (Nat.lt_succ_self n)

lemma natToString_ne_nil (n : Nat) : natToString n ≠ [] :=
  natToStringAux_ne_nil (n + 1) n (Nat.lt_succ_self n)

lemma parseIntDigits_natToString (n : Nat) : parseIntDigits (natToString n) = n :=
  parseIntDigits_natToStringAux (n + 1) n (Nat.lt_succ_self n)

lemma takeWhile_append_all {p : Nat → Bool} :
    ∀ l1 l2 : List Nat, (∀ x ∈ l1, p x = true) →
      (l1 ++ l2).takeWhile p = l1 ++ l2.takeWhile p := by
  intro l1
  induction l1 with
  | nil => intro l2 _; simp
  | cons a t ih =>
    intro l2 h
    have ha : p a = true := h a (by simp)
    simp only [List.cons_append, List.takeWhile_cons, ha, if_true]
    rw [ih l2 (fun x hx => h x (by simp [hx]))]

lemma takeWhile_head_false {p : Nat → Bool} (d : Nat) (t : List Nat) (h : p d = false) :
    (d :: t).takeWhile p = [] := by
  simp [List.takeWhile_cons, h]

/-- parseCellId on a well-shaped letters-digits concatenation: the regex
match succeeds and splits exactly at the type boundary. -/
lemma parseCellId_append (L D : List Nat) (hL : L ≠ [])
    (hLu : ∀ ch ∈ L, isUpperCode ch = true) (hD : D ≠ [])
    (hDd : ∀ ch ∈ D, isDigitCode ch = true) :
    parseCellId (L ++ D) = some { col := letterToCol L, row := (parseIntDigits D : Int) - 1 } := by
  obtain ⟨d, t, rfl⟩ : ∃ d t, D = d :: t := by
    cases D with
    | nil => exact absurd rfl hD
    | cons d t => exact ⟨d, t, rfl⟩
  have hd : isDigitCode d = true := hDd d (by simp)
  have hdu : isUpperCode d = false := by
    rw [isUpperCode]
    rw [isDigitCode] at hd
    simp only [Bool.and_eq_true, decide_eq_true_eq] at hd
    simp only [Bool.and_eq_false_iff, decide_eq_false_iff_not]
    omega
  have htake : (L ++ d :: t).takeWhile isUpperCode = L := by
    rw [takeWhile_append_all L (d :: t) hLu, takeWhile_head_false d t hdu, List.append_nil]
  obtain ⟨a, L2, rfl⟩ : ∃ a L2, L = a :: L2 := by
    cases L with
    | nil => exact absurd rfl hL
    | cons a L2 => exact ⟨a, L2, rfl⟩
  rw [parseCellId]
  simp only [htake, List.drop_left]
  have hcond : (!(a :: L2).isEmpty && !(d :: t).isEmpty && (d :: t).all isDigitCode) = true := by
    simp only [List.isEmpty_cons, Bool.not_false, Bool.true_and, List.all_eq_true]
    exact hDd
  rw [if_pos hcond]

lemma getCellId_natCast (r c : Nat) :
    getCellId (r : Int) (c : Int) = colToLetter c ++ natToString (r + 1) := by
  rw [getCellId, colToLetterInt, intToString]
  have h1 : ¬ ((c : Int) < 0) := by omega
  have h2 : ¬ ((r : Int) + 1 < 0) := by omega
  simp only [if_neg h1, if_neg h2]
  have h3 : ((c : Int)).toNat = c := by omega
  have h4 : ((r : Int) + 1).toNat = r + 1 := by omega
  rw [h3, h4]

/-- Round trip of the address codec, for every address. -/
lemma parseCellId_getCellId (r c : Nat) :
    parseCellId (getCellId (r : Int) (c : Int)) = some { col := (c : Int), row := (r : Int) } := by
  rw [getCellId_natCast]
  rw [parseCellId_append (colToLetter c) (natToString (r + 1)) (colToLetter_ne_nil c)
    (fun ch hch => by
      have := colToLetter_mem c ch hch
      rw [isUpperCode]
      simp only [Bool.and_eq_true, decide_eq_true_eq]
      omega)
    (natToString_ne_nil (r + 1))
    (fun ch hch => by
      have := natToString_digits (r + 1) ch hch
      rw [isDigitCode]
      simp only [Bool.and_eq_true, decide_eq_true_eq]
      omega)]
  rw [letterToCol_colToLetter, parseIntDigits_natToString]
  congr 1
  congr 1
  omega

lemma parseIntDigits_replicate_zeros (k : Nat) (D : List Nat) :
    parseIntDigits (List.replicate k 48 ++ D) = parseIntDigits D := by
  rw [parseIntDigits, List.foldl_append]
  have h0 : (List.replicate k 48).foldl (fun a d => a * 10 + (d - 48)) 0 = 0 := by
    induction k with
    | zero => rfl
    | succ n ih =>
      rw [List.replicate_succ]
      simp only [List.foldl_cons]
      simpa using ih
  rw [h0]
  rfl

/-! ### Lemmas about the cell store and the recalculation pass -/

lemma lookupCell_setCell (st : Store) (k : List Nat) (r : CellRec) (x : List Nat) :
    lookupCell (setCell st k r) x = if k = x then some r else lookupCell st x := by
  induction st with
  | nil => simp [setCell, lookupCell]
  | cons p rest ih =>
    obtain ⟨k0, r0⟩ := p
    by_cases h1 : k0 = k
    · subst h1
      by_cases h2 : k0 = x <;> simp [setCell, lookupCell, h2]
    · by_cases h2 : k0 = x
      · subst h2
        have hkx : ¬ k = k0 := fun he => h1 he.symm
        simp [setCell, lookupCell, h1, hkx]
      · simp [setCell, lookupCell, h1, h2, ih]

lemma lookupCell_eraseCell (st : Store) (k x : List Nat) :
    lookupCell (eraseCell st k) x = if x = k then none else lookupCell st x := by
  induction st with
  | nil => by_cases h : x = k <;> simp [eraseCell, lookupCell, h]
  | cons p rest ih =>
    obtain ⟨k0, r0⟩ := p
    rw [eraseCell, List.filter_cons] at *
    by_cases h1 : k0 = k
    · subst h1
      by_cases h2 : x = k0
      · subst h2
        simp [lookupCell, ih]
      · simp [lookupCell, h2, ih, (show ¬ k0 = x from fun he => h2 he.symm)]
    · by_cases h2 : k0 = x
      · subst h2
        have hxk : ¬ k0 = k := h1
        simp [lookupCell, h1, hxk]
      · by_cases h3 : x = k
        · subst h3
          simp [lookupCell, h1, h2, ih]
        · simp [lookupCell, h1, h2, h3, ih]

lemma recalcCell_lookup_none (st : Store) (c x : List Nat) (h : lookupCell st x = none) :
    lookupCell (recalcCell st c) x = none := by
  rw [recalcCell]
  cases hc : lookupCell st c with
  | none => exact h
  | some cd =>
    cases hf : cd.formula.isEmpty with
    | true => simpa [hf] using h
    | false =>
      simp only [hf, Bool.not_false, if_pos]
      rw [lookupCell_setCell]
      rw [if_neg]
      · exact h
      · intro he
        rw [← he] at h
        rw [h] at hc
        cases hc

lemma recalcCell_formula_map (st : Store) (c x : List Nat) :
    (lookupCell (recalcCell st c) x).map CellRec.formula
      = (lookupCell st x).map CellRec.formula := by
  rw [recalcCell]
  cases hc : lookupCell st c with
  | none => rfl
  | some cd =>
    cases hf : cd.formula.isEmpty with
    | true => simp [hf]
    | false =>
      simp only [hf, Bool.not_false, if_pos]
      rw [lookupCell_setCell]
      by_cases he : c = x
      · subst he
        rw [if_pos rfl, hc]
        rfl
      · rw [if_neg he]

lemma recalcCell_format_map (st : Store) (c x : List Nat) :
    (lookupCell (recalcCell st c) x).map CellRec.format
      = (lookupCell st x).map CellRec.format := by
  rw [recalcCell]
  cases hc : lookupCell st c with
  | none => rfl
  | some cd =>
    cases hf : cd.formula.isEmpty with
    | true => simp [hf]
    | false =>
      simp only [hf, Bool.not_false, if_pos]
      rw [lookupCell_setCell]
      by_cases he : c = x
      · subst he
        rw [if_pos rfl, hc]
        rfl
      · rw [if_neg he]

lemma recalcCell_of_formula_nil (st : Store) (c x : List Nat) (cd : CellRec)
    (h : lookupCell st x = some cd) (hf : cd.formula = []) :
    lookupCell (recalcCell st c) x = some cd := by
  rw [recalcCell]
  cases hc : lookupCell st c with
  | none => exact h
  | some cd2 =>
    cases hf2 : cd2.formula.isEmpty with
    | true => simpa [hf2] using h
    | false =>
      simp only [hf2, Bool.not_false, if_pos]
      rw [lookupCell_setCell]
      by_cases he : c = x
      · subst he
        rw [h] at hc
        cases hc
        rw [hf] at hf2
        cases hf2
      · rw [if_neg he]
        exact h

lemma foldRecalc_lookup_none (keys : List (List Nat)) : ∀ st x, lookupCell st x = none →
    lookupCell (keys.foldl recalcCell st) x = none := by
  induction keys with
  | nil => intro st x h; exact h
  | cons k ks ih =>
    intro st x h
    rw [List.foldl_cons]
    exact ih _ _ (recalcCell_lookup_none st k x h)

lemma foldRecalc_formula_map (keys : List (List Nat)) : ∀ st x,
    (lookupCell (keys.foldl recalcCell st) x).map CellRec.formula
      = (lookupCell st x).map CellRec.formula := by
  induction keys with
  | nil => intro st x; rfl
  | cons k ks ih =>
    intro st x
    rw [List.foldl_cons, ih, recalcCell_formula_map]

lemma foldRecalc_format_map (keys : List (List Nat)) : ∀ st x,
    (lookupCell (keys.foldl recalcCell st) x).map CellRec.format
      = (lookupCell st x).map CellRec.format := by
  induction keys with
  | nil => intro st x; rfl
  | cons k ks ih =>
    intro st x
    rw [List.foldl_cons, ih, recalcCell_format_map]

lemma foldRecalc_of_formula_nil (keys : List (List Nat)) : ∀ st x cd,
    lookupCell st x = some cd → cd.formula = [] →
      lookupCell (keys.foldl recalcCell st) x = some cd := by
  induction keys with
  | nil => intro st x cd h _; exact h
  | cons k ks ih =>
    intro st x cd h hf
    rw [List.foldl_cons]
    exact ih _ _ _ (recalcCell_of_formula_nil st k x cd h hf) hf

lemma recalculateAll_lookup_none (st : Store) (x : List Nat) (h : lookupCell st x = none) :
    lookupCell (recalculateAll st) x = none :=
  foldRecalc_lookup_none _ _ _ h

lemma recalculateAll_formula_map (st : Store) (x : List Nat) :
    (lookupCell (recalculateAll st) x).map CellRec.formula
      = (lookupCell st x).map CellRec.formula :=
  foldRecalc_formula_map _ _ _

lemma recalculateAll_format_map (st : Store) (x : List Nat) :
    (lookupCell (recalculateAll st) x).map CellRec.format
      = (lookupCell st x).map CellRec.format :=
  foldRecalc_format_map _ _ _

lemma recalculateAll_of_formula_nil (st : Store) (x : List Nat) (cd : CellRec)
    (h : lookupCell st x = some cd) (hf : cd.formula = []) :
    lookupCell (recalculateAll st) x = some cd :=
  foldRecalc_of_formula_nil _ _ _ _ h hf

/-- A formula input keeps its verbatim text in the record through the
evaluation and the recalculation pass. -/
lemma finishEditing_formula_of_marker (st : Store) (cellId v : List Nat)
    (h : v.head? = some 61) :
    (lookupCell (finishEditing st cellId v) cellId).map CellRec.formula = some v := by
  simp only [finishEditing]
  rw [if_pos h]
  rw [recalculateAll_formula_map, lookupCell_setCell, if_pos rfl]
  rfl

/-- A non-formula input stores the raw text with an empty formula and
passes through the recalculation pass untouched. -/
lemma finishEditing_nonformula (st : Store) (cellId v : List Nat)
    (h : ¬ v.head? = some 61) :
    lookupCell (finishEditing st cellId v) cellId =
      some { ((lookupCell st cellId).getD emptyCellRec) with
        formula := ([] : List Nat),
        value := .str v,
        displayValue := some (formatValue (.str v) ((lookupCell st cellId).getD emptyCellRec).format) } := by
  simp only [finishEditing]
  rw [if_neg h]
  apply recalculateAll_of_formula_nil
  · rw [lookupCell_setCell, if_pos rfl]
  · rfl

/-! ### Lemmas about the aggregate folds -/

lemma foldl_jsAdd_map (qs : List ℚ) : ∀ a : ℚ,
    (qs.map JSNum.num).foldl jsAdd (.num a) = .num (a + qs.sum) := by
  induction qs with
  | nil => intro a; simp
  | cons q t ih =>
    intro a
    simp only [List.map_cons, List.foldl_cons, List.sum_cons]
    have hstep : jsAdd (.num a) (.num q) = .num (a + q) := rfl
    rw [hstep, ih (a + q)]
    congr 1
    ring

lemma sumList_map (qs : List ℚ) : sumList (qs.map JSNum.num) = .num qs.sum := by
  rw [sumList, foldl_jsAdd_map qs 0]
  congr 1
  ring

lemma foldl_jsMin_map (qs : List ℚ) : ∀ a : ℚ,
    (qs.map JSNum.num).foldl jsMin (.num a) = .num (qs.foldl min a) := by
  induction qs with
  | nil => intro a; rfl
  | cons q t ih =>
    intro a
    simp only [List.map_cons, List.foldl_cons]
    have hstep : jsMin (.num a) (.num q) = .num (min a q) := rfl
    rw [hstep, ih (min a q)]

lemma foldl_jsMax_map (qs : List ℚ) : ∀ a : ℚ,
    (qs.map JSNum.num).foldl jsMax (.num a) = .num (qs.foldl max a) := by
  induction qs with
  | nil => intro a; rfl
  | cons q t ih =>
    intro a
    simp only [List.map_cons, List.foldl_cons]
    have hstep : jsMax (.num a) (.num q) = .num (max a q) := rfl
    rw [hstep, ih (max a q)]

lemma foldl_min_le (qs : List ℚ) : ∀ a : ℚ,
    qs.foldl min a ≤ a ∧ ∀ x ∈ qs, qs.foldl min a ≤ x := by
  induction qs with
  | nil => intro a; exact ⟨le_refl a, by simp⟩
  | cons q t ih =>
    intro a
    simp only [List.foldl_cons]
    obtain ⟨h1, h2⟩ := ih (min a q)
    refine ⟨le_trans h1 (min_le_left a q), ?_⟩
    intro x hx
    rcases List.mem_cons.mp hx with rfl | hx
    · exact le_trans h1 (min_le_right a x)
    · exact h2 x hx

lemma foldl_min_mem (qs : List ℚ) : ∀ a : ℚ,
    qs.foldl min a = a ∨ qs.foldl min a ∈ qs := by
  induction qs with
  | nil => intro a; exact Or.inl rfl
  | cons q t ih =>
    intro a
    simp only [List.foldl_cons]
    rcases ih (min a q) with h | h
    · rcases le_total a q with hle | hle
      · exact Or.inl (by rw [h, min_eq_left hle])
      · refine Or.inr ?_
        rw [h, min_eq_right hle]
        exact List.mem_cons_self q t
    · exact Or.inr (List.mem_cons_of_mem q h)

lemma foldl_max_le (qs : List ℚ) : ∀ a : ℚ,
    a ≤ qs.foldl max a ∧ ∀ x ∈ qs, x ≤ qs.foldl max a := by
  induction qs with
  | nil => intro a; exact ⟨le_refl a, by simp⟩
  | cons q t ih =>
    intro a
    simp only [List.foldl_cons]
    obtain ⟨h1, h2⟩ := ih (max a q)
    refine ⟨le_trans (le_max_left a q) h1, ?_⟩
    intro x hx
    rcases List.mem_cons.mp hx with rfl | hx
    · exact le_trans (le_max_right a x) h1
    · exact h2 x hx

lemma foldl_max_mem (qs : List ℚ) : ∀ a : ℚ,
    qs.foldl max a = a ∨ qs.foldl max a ∈ qs := by
  induction qs with
  | nil => intro a; exact Or.inl rfl
  | cons q t ih =>
    intro a
    simp only [List.foldl_cons]
    rcases ih (max a q) with h | h
    · rcases le_total a q with hle | hle
      · refine Or.inr ?_
        rw [h, max_eq_right hle]
        exact List.mem_cons_self q t
      · exact Or.inl (by rw [h, max_eq_left hle])
    · exact Or.inr (List.mem_cons_of_mem q h)

/-! ### Claim theorems -/

/-- C1: for every row in [0, 1000) and column in [0, 52), parsing the
label produced by getCellId returns exactly the original address. -/
theorem C1_address_roundtrip (r c : Nat) (hr : r < 1000) (hc : c < 52) :
    parseCellId (getCellId (r : Int) (c : Int)) = some { col := (c : Int), row := (r : Int) } :=
  parseCellId_getCellId r c

/-- C1 witness: the round trip at the concrete address row 11, column 3
(label "D12"). -/
theorem C1_address_roundtrip_witness :
    parseCellId (getCellId ((11 : Nat) : Int) ((3 : Nat) : Int))
      = some { col := ((3 : Nat) : Int), row := ((11 : Nat) : Int) } :=
  C1_address_roundtrip 11 3 (by omega) (by omega)

/-- C10: parseCellId accepts labels whose digit run carries leading
zeros and maps them to the same address as the canonical label, so it is
not injective on accepted labels ("A01" and "A1" are distinct accepted
labels of row 0, column 0) and getCellId of the parsed address differs
from the original label for such inputs. -/
theorem C10_leading_zeros :
    (∀ (L D : List Nat) (k : Nat), L ≠ [] → (∀ ch ∈ L, isUpperCode ch = true) →
        D ≠ [] → (∀ ch ∈ D, isDigitCode ch = true) →
        parseCellId (L ++ (List.replicate k 48 ++ D)) = parseCellId (L ++ D))
  ∧ parseCellId (jstr ("A01")) = some { col := 0, row := 0 }
  ∧ parseCellId (jstr ("A1")) = some { col := 0, row := 0 }
  ∧ ¬ jstr ("A01") = jstr ("A1")
  ∧ getCellId 0 0 = jstr ("A1") := by
  refine ⟨?_, by with_unfolding_all decide, by with_unfolding_all decide,
    by with_unfolding_all decide, by with_unfolding_all decide⟩
  intro L D k hL hLu hD hDd
  have hD2 : List.replicate k 48 ++ D ≠ [] := by
    intro hcon
    exact hD (List.append_eq_nil.mp hcon).2
  have hD2d : ∀ ch ∈ List.replicate k 48 ++ D, isDigitCode ch = true := by
    intro ch hch
    rcases List.mem_append.mp hch with hch | hch
    · have := List.eq_of_mem_replicate hch
      subst this
      rfl
    · exact hDd ch hch
  rw [parseCellId_append L _ hL hLu hD2 hD2d, parseCellId_append L D hL hLu hD hDd,
    parseIntDigits_replicate_zeros]

/-- C10 witness: the leading-zero collapse at the concrete label "B007"
versus "B7". -/
theorem C10_leading_zeros_witness :
    parseCellId ([66] ++ (List.replicate 2 48 ++ [55])) = parseCellId ([66] ++ [55]) :=
  C10_leading_zeros.1 [66] [55] 2 (by decide) (by decide) (by decide) (by decide)

/-- C2 counterexample: the formula =1/0 is a division producing a
non-finite result, yet evaluateFormula returns the number Infinity, not
the literal #ERROR. -/
theorem C2_error_marker_counterexample :
    evaluateFormula [] (jstr ("=1/0")) (jstr ("A1")) = .num .posInf
  ∧ ¬ evaluateFormula [] (jstr ("=1/0")) (jstr ("A1")) = .str (jstr ("#ERROR")) := by
  with_unfolding_all decide

/-- C2 (amended): if the parse of the substituted expression fails, the
result is the literal #ERROR; if the evaluation produces a number, a NaN
result (e.g. =0/0) becomes #ERROR while any other number — including an
infinite division result such as =1/0 — is returned as the value, not as
#ERROR; and the edited cell's raw formula text is stored verbatim,
unchanged by whatever the evaluation returns. -/
theorem C2_error_marker (st : Store) (f cell : List Nat) :
    (evalArith (substituteAll st cell f) = none →
        evaluateFormula st f cell = .str (jstr ("#ERROR")))
  ∧ (∀ r, evalArith (substituteAll st cell f) = some r →
        evaluateFormula st f cell = if r = .nan then .str (jstr ("#ERROR")) else .num r)
  ∧ (f.head? = some 61 →
        (lookupCell (finishEditing st cell f) cell).map CellRec.formula = some f) := by
  refine ⟨?_, ?_, ?_⟩
  · intro h
    rw [evaluateFormula, h]
  · intro r h
    rw [evaluateFormula, h]
  · exact finishEditing_formula_of_marker st cell f

/-- C2 witness: a parse failure (=\x29) yields #ERROR, a NaN result
(=0/0) yields #ERROR, and the raw text of =0/0 is stored verbatim. -/
theorem C2_error_marker_witness :
    evaluateFormula [] (jstr ("=)")) (jstr ("A1")) = .str (jstr ("#ERROR"))
  ∧ evaluateFormula [] (jstr ("=0/0")) (jstr ("A1")) = .str (jstr ("#ERROR"))
  ∧ (lookupCell (finishEditing [] (jstr ("A1")) (jstr ("=0/0"))) (jstr ("A1"))).map CellRec.formula
      = some (jstr ("=0/0")) := by
  refine ⟨(C2_error_marker [] (jstr ("=)")) (jstr ("A1"))).1 ?_, ?_,
    (C2_error_marker [] (jstr ("=0/0")) (jstr ("A1"))).2.2 ?_⟩
  · with_unfolding_all decide
  · have h := (C2_error_marker [] (jstr ("=0/0")) (jstr ("A1"))).2.1 JSNum.nan
      (by with_unfolding_all decide)
    simpa using h
  · with_unfolding_all decide

/-- C4: during bare-reference substitution a reference to the cell being
evaluated yields 0, a missing cell yields 0, and a cell whose value does
not parse as a number (including the empty value) yields 0; setting A1
to the formula =A1+1 therefore stores value 1, not an error. -/
theorem C4_self_reference (st : Store) (cur cell : List Nat) :
    refValue st cur cur = .num 0
  ∧ (¬ cell = cur → lookupCell st cell = none → refValue st cur cell = .num 0)
  ∧ (∀ cd, ¬ cell = cur → lookupCell st cell = some cd →
        parseFloatValue cd.value = .nan → refValue st cur cell = .num 0)
  ∧ (lookupCell (finishEditing [] (jstr ("A1")) (jstr ("=A1+1"))) (jstr ("A1"))).map CellRec.value
      = some (.num (.num 1)) := by
  refine ⟨?_, ?_, ?_, ?_⟩
  · simp [refValue]
  · intro h hn
    simp [refValue, h, hn, parseFloatValue]
  · intro cd h hs hnan
    simp [refValue, h, hs, hnan]
  · with_unfolding_all decide

/-- C4 witness: a reference to a missing cell and a reference to an
empty cell both substitute 0, at concrete inputs. -/
theorem C4_self_reference_witness :
    refValue [] (jstr ("B2")) (jstr ("A1")) = .num 0
  ∧ refValue [(jstr ("A1"), emptyCellRec)] (jstr ("B2")) (jstr ("A1")) = .num 0 := by
  refine ⟨(C4_self_reference [] (jstr ("B2")) (jstr ("A1"))).2.1 ?_ ?_,
    (C4_self_reference [(jstr ("A1"), emptyCellRec)] (jstr ("B2")) (jstr ("A1"))).2.2.1
      emptyCellRec ?_ ?_ ?_⟩
  · with_unfolding_all decide
  · with_unfolding_all decide
  · with_unfolding_all decide
  · with_unfolding_all decide
  · with_unfolding_all decide

/-- C3: when the numeric values collected from a rectangular span are
the rationals qs (empty and non-numeric cells having been excluded by
the collection, not zero-filled), SUM is their arithmetic sum, COUNT is
their number, AVG is sum over count (0 on the empty set, not a fault),
and MIN/MAX return an element of the set that bounds it (0 on the empty
set). -/
theorem C3_range_aggregates (st : Store) (s e : List Nat) (qs : List ℚ)
    (h : getRangeValues st s e = qs.map JSNum.num) :
    sumRange st s e = .num qs.sum
  ∧ countRange st s e = .num (qs.length : ℚ)
  ∧ avgRange st s e = (if qs = [] then .num 0 else .num (qs.sum / (qs.length : ℚ)))
  ∧ (qs = [] → sumRange st s e = .num 0 ∧ avgRange st s e = .num 0
       ∧ minRange st s e = .num 0 ∧ maxRange st s e = .num 0 ∧ countRange st s e = .num 0)
  ∧ (¬ qs = [] → (∃ m, m ∈ qs ∧ minRange st s e = .num m ∧ ∀ x ∈ qs, m ≤ x)
       ∧ (∃ M, M ∈ qs ∧ maxRange st s e = .num M ∧ ∀ x ∈ qs, x ≤ M)) := by
  have hsum : sumRange st s e = .num qs.sum := by
    rw [sumRange, h, sumList_map]
  have hcount : countRange st s e = .num (qs.length : ℚ) := by
    rw [countRange, h, List.length_map]
  have havg : avgRange st s e = (if qs = [] then .num 0 else .num (qs.sum / (qs.length : ℚ))) := by
    rw [avgRange, h]
    cases qs with
    | nil => rfl
    | cons q t =>
      have hne : (((q :: t).map JSNum.num).isEmpty : Bool) = false := rfl
      simp only [hne, Bool.not_false, if_pos, if_neg (List.cons_ne_nil q t)]
      rw [sumList_map, List.length_map]
      have hlen : ((q :: t).length : ℚ) ≠ 0 := by
        simp [List.length_cons]
        positivity
      show jsDiv (.num (q :: t).sum) (.num ((q :: t).length : ℚ)) = _
      rw [jsDiv, if_neg hlen]
  refine ⟨hsum, hcount, havg, ?_, ?_⟩
  · intro hnil
    subst hnil
    refine ⟨by simpa using hsum, by simpa using havg, ?_, ?_, by simpa using hcount⟩
    · rw [minRange, h]
      rfl
    · rw [maxRange, h]
      rfl
  · intro hne
    obtain ⟨q, t, rfl⟩ : ∃ q t, qs = q :: t := by
      cases qs with
      | nil => exact absurd rfl hne
      | cons q t => exact ⟨q, t, rfl⟩
    constructor
    · refine ⟨t.foldl min q, ?_, ?_, ?_⟩
      · rcases foldl_min_mem t q with heq | hmem
        · rw [heq]
          exact List.mem_cons_self q t
        · exact List.mem_cons_of_mem q hmem
      · rw [minRange, h]
        have hne2 : (((q :: t).map JSNum.num).isEmpty : Bool) = false := rfl
        simp only [hne2, Bool.not_false, if_pos]
        show ((q :: t).map JSNum.num).foldl jsMin .posInf = _
        simp only [List.map_cons, List.foldl_cons]
        have hstep : jsMin .posInf (.num q) = .num q := rfl
        rw [hstep, foldl_jsMin_map]
      · intro x hx
        rcases List.mem_cons.mp hx with rfl | hx
        · exact (foldl_min_le t x).1
        · exact (foldl_min_le t q).2 x hx
    · refine ⟨t.foldl max q, ?_, ?_, ?_⟩
      · rcases foldl_max_mem t q with heq | hmem
        · rw [heq]
          exact List.mem_cons_self q t
        · exact List.mem_cons_of_mem q hmem
      · rw [maxRange, h]
        have hne2 : (((q :: t).map JSNum.num).isEmpty : Bool) = false := rfl
        simp only [hne2, Bool.not_false, if_pos]
        show ((q :: t).map JSNum.num).foldl jsMax .negInf = _
        simp only [List.map_cons, List.foldl_cons]
        have hstep : jsMax .negInf (.num q) = .num q := rfl
        rw [hstep, foldl_jsMax_map]
      · intro x hx
        rcases List.mem_cons.mp hx with rfl | hx
        · exact (foldl_max_le t x).1
        · exact (foldl_max_le t q).2 x hx

/-- A store with a numeric text cell A1 = "2" and a non-numeric text
cell A2 = "x". -/
def mixedStore : Store :=
  [(jstr ("A1"), { emptyCellRec with value := .str (jstr ("2")) }),
   (jstr ("A2"), { emptyCellRec with value := .str (jstr ("x")) })]

/-- C3 witness: over the two-cell span A1:A2 of `mixedStore` the text
cell is excluded, so SUM is 2 and COUNT is 1 (not the span size 2). -/
theorem C3_range_aggregates_witness :
    sumRange mixedStore (jstr ("A1")) (jstr ("A2")) = .num 2
  ∧ countRange mixedStore (jstr ("A1")) (jstr ("A2")) = .num 1 := by
  have h3 := C3_range_aggregates mixedStore (jstr ("A1")) (jstr ("A2")) [2]
    (by with_unfolding_all decide)
  refine ⟨?_, ?_⟩
  · have := h3.1
    simpa using this
  · have := h3.2.1
    simpa using this

/-- The store produced by entering A1 = "=B1", then B1 = "=C1", then
C1 = "9", in that order. -/
def staleStore : Store :=
  finishEditing (finishEditing (finishEditing [] (jstr ("A1")) (jstr ("=B1")))
    (jstr ("B1")) (jstr ("=C1"))) (jstr ("C1")) (jstr ("9"))

/-- C5: the recalculation pass touches every cell exactly through
recalcCell — a cell without a formula survives the pass unchanged, a
missing key stays missing, and a formula cell keeps its formula and
format while value and displayValue are refreshed; and because the pass
runs in insertion order without iterating to a fixpoint, after entering
A1 = "=B1", B1 = "=C1" and then editing C1 to "9", A1 still shows B1's
previous value 0 while B1 already shows 9, and only a further pass
brings A1 to 9. -/
theorem C5_single_pass_recalc (st : Store) (x : List Nat) :
    (∀ cd, lookupCell st x = some cd → cd.formula = [] →
        lookupCell (recalculateAll st) x = some cd)
  ∧ (lookupCell st x = none → lookupCell (recalculateAll st) x = none)
  ∧ (∀ cd, lookupCell st x = some cd →
        ∃ cd', lookupCell (recalculateAll st) x = some cd'
          ∧ cd'.formula = cd.formula ∧ cd'.format = cd.format)
  ∧ ((lookupCell staleStore (jstr ("A1"))).map CellRec.value = some (.num (.num 0))
       ∧ (lookupCell staleStore (jstr ("B1"))).map CellRec.value = some (.num (.num 9))
       ∧ (lookupCell (recalculateAll staleStore) (jstr ("A1"))).map CellRec.value
           = some (.num (.num 9))) := by
  refine ⟨?_, recalculateAll_lookup_none st x, ?_, ?_⟩
  · intro cd h hf
    exact recalculateAll_of_formula_nil st x cd h hf
  · intro cd h
    have hform := recalculateAll_formula_map st x
    have hfmt := recalculateAll_format_map st x
    rw [h] at hform hfmt
    cases h2 : lookupCell (recalculateAll st) x with
    | none =>
      rw [h2] at hform
      cases hform
    | some cd' =>
      rw [h2] at hform hfmt
      refine ⟨cd', rfl, ?_, ?_⟩
      · simpa using hform
      · simpa using hfmt
  · exact ⟨by with_unfolding_all decide, by with_unfolding_all decide,
      by with_unfolding_all decide⟩

/-- C5 witness: a concrete cell without a formula is untouched by the
pass, at a concrete one-cell store. -/
theorem C5_single_pass_recalc_witness :
    lookupCell (recalculateAll [(jstr ("D4"), emptyCellRec)]) (jstr ("D4")) = some emptyCellRec :=
  (C5_single_pass_recalc [(jstr ("D4"), emptyCellRec)] (jstr ("D4"))).1 emptyCellRec
    (by with_unfolding_all decide) rfl

/-- The snapshot { data: {}, rows: 5000, cols: 26 }, whose row count
lies outside the configured bounds. -/
def oversizedSnapshot : Snapshot :=
  { title := none, data := some [], rows := some 5000, cols := some 26 }

/-- C6 counterexample: loading a snapshot with rows = 5000 restores a
row count of 5000, strictly above the configured maximum of 1000 — the
out-of-bounds value is neither rejected nor clamped. -/
theorem C6_load_bounds_counterexample :
    (loadFromLocalStorage (some oversizedSnapshot) initialState).rows = 5000
  ∧ ¬ ((loadFromLocalStorage (some oversizedSnapshot) initialState).rows
        ≤ (CONFIG.maxRows : Int)) := by
  with_unfolding_all decide

/-- C6 (amended): loading substitutes defaults for missing fields — an
absent data mapping becomes empty, absent (or 0, which is falsy) rows
and cols become the defaults — but performs no bounds check: a present
non-zero dimension is restored verbatim even when outside the configured
bounds, on both the local-storage and the filesystem path; an unparsable
snapshot leaves the state untouched. -/
theorem C6_load_defaults (s : Snapshot) (st : GridState) :
    loadFromLocalStorage none st = st
  ∧ (loadFromLocalStorage (some s) st).data = s.data.getD []
  ∧ (s.rows = none → (loadFromLocalStorage (some s) st).rows = (CONFIG.defaultRows : Int))
  ∧ (s.rows = some 0 → (loadFromLocalStorage (some s) st).rows = (CONFIG.defaultRows : Int))
  ∧ (∀ r : Int, s.rows = some r → ¬ r = 0 → (loadFromLocalStorage (some s) st).rows = r)
  ∧ (s.cols = none → (loadFromLocalStorage (some s) st).cols = (CONFIG.defaultCols : Int))
  ∧ (s.cols = some 0 → (loadFromLocalStorage (some s) st).cols = (CONFIG.defaultCols : Int))
  ∧ (∀ c : Int, s.cols = some c → ¬ c = 0 → (loadFromLocalStorage (some s) st).cols = c)
  ∧ (∀ (name : List Nat) (r : Int), s.rows = some r → ¬ r = 0 →
        (loadFromFilesystem (some { name := name, content := some s }) st).rows = r) := by
  refine ⟨rfl, rfl, ?_, ?_, ?_, ?_, ?_, ?_, ?_⟩
  · intro h
    simp [loadFromLocalStorage, intOrDefault, h]
  · intro h
    simp [loadFromLocalStorage, intOrDefault, h]
  · intro r h hr
    simp [loadFromLocalStorage, intOrDefault, h, hr]
  · intro h
    simp [loadFromLocalStorage, intOrDefault, h]
  · intro h
    simp [loadFromLocalStorage, intOrDefault, h]
  · intro c h hc
    simp [loadFromLocalStorage, intOrDefault, h, hc]
  · intro name r h hr
    simp [loadFromFilesystem, intOrDefault, h, hr]

/-- C6 witness: the defaulting cases at a concrete snapshot with all
fields missing, and the verbatim case at rows = 7. -/
theorem C6_load_defaults_witness :
    (loadFromLocalStorage (some { title := none, data := none, rows := none, cols := none })
        initialState).rows = (CONFIG.defaultRows : Int)
  ∧ (loadFromLocalStorage (some { title := none, data := none, rows := some 7, cols := none })
        initialState).rows = 7 := by
  refine ⟨(C6_load_defaults { title := none, data := none, rows := none, cols := none }
      initialState).2.2.1 rfl,
    (C6_load_defaults { title := none, data := none, rows := some 7, cols := none }
      initialState).2.2.2.2.1 7 rfl (by decide)⟩

/-- C7: applying a format creates the record when absent (with empty
value), rewrites only the format and displayValue of that one cell —
value and formula are untouched — and leaves every other cell alone.  In
particular percent formatting of a cell holding 0.5 renders "50.0%"
while the stored value stays "0.5". -/
theorem C7_apply_format (st : Store) (cellId : List Nat) (ft : FormatKind) :
    (∀ x, ¬ x = cellId → lookupCell (applyFormat st cellId ft) x = lookupCell st x)
  ∧ (∀ cd, lookupCell st cellId = some cd →
      lookupCell (applyFormat st cellId ft) cellId =
        some { cd with format := some ft, displayValue := some (formatValue cd.value (some ft)) })
  ∧ (lookupCell st cellId = none →
      lookupCell (applyFormat st cellId ft) cellId =
        some { emptyCellRec with format := some ft, displayValue := some (formatValue (.str []) (some ft)) }) := by
  refine ⟨?_, ?_, ?_⟩
  · intro x hx
    simp only [applyFormat]
    rw [lookupCell_setCell, if_neg (fun he => hx he.symm)]
  · intro cd h
    simp only [applyFormat, h, Option.getD_some]
    rw [lookupCell_setCell, if_pos rfl]
  · intro h
    simp only [applyFormat, h, Option.getD_none]
    rw [lookupCell_setCell, if_pos rfl]
    rfl

/-- The one-cell store holding the text value "0.5" in A1. -/
def halfStore : Store :=
  [(jstr ("A1"), { emptyCellRec with value := .str (jstr ("0.5")) })]

/-- C7 witness: percent formatting of the cell holding 0.5 yields
displayValue "50.0%" with the value still "0.5" and the formula
untouched. -/
theorem C7_apply_format_witness :
    lookupCell (applyFormat halfStore (jstr ("A1")) .percent) (jstr ("A1")) =
      some { value := .str (jstr ("0.5")), formula := [], format := some .percent,
             displayValue := some (.str (jstr ("50.0%"))) } := by
  have h := (C7_apply_format halfStore (jstr ("A1")) .percent).2.1
    { emptyCellRec with value := .str (jstr ("0.5")) } (by with_unfolding_all decide)
  rw [h]
  with_unfolding_all decide

lemma applyGridOp_inv (st : GridState) (op : GridOp)
    (h1 : 1 ≤ st.rows) (h2 : st.rows ≤ (CONFIG.maxRows : Int))
    (h3 : 1 ≤ st.cols) (h4 : st.cols ≤ (CONFIG.maxCols : Int)) :
    1 ≤ (applyGridOp st op).rows ∧ (applyGridOp st op).rows ≤ (CONFIG.maxRows : Int)
  ∧ 1 ≤ (applyGridOp st op).cols ∧ (applyGridOp st op).cols ≤ (CONFIG.maxCols : Int) := by
  cases op <;> simp only [applyGridOp, CONFIG] at * <;> omega

lemma foldl_gridOps_inv (ops : List GridOp) : ∀ st : GridState,
    1 ≤ st.rows → st.rows ≤ (CONFIG.maxRows : Int) →
    1 ≤ st.cols → st.cols ≤ (CONFIG.maxCols : Int) →
    1 ≤ (ops.foldl applyGridOp st).rows
  ∧ (ops.foldl applyGridOp st).rows ≤ (CONFIG.maxRows : Int)
  ∧ 1 ≤ (ops.foldl applyGridOp st).cols
  ∧ (ops.foldl applyGridOp st).cols ≤ (CONFIG.maxCols : Int) := by
  induction ops with
  | nil => intro st h1 h2 h3 h4; exact ⟨h1, h2, h3, h4⟩
  | cons op rest ih =>
    intro st h1 h2 h3 h4
    rw [List.foldl_cons]
    obtain ⟨g1, g2, g3, g4⟩ := applyGridOp_inv st op h1 h2 h3 h4
    exact ih _ g1 g2 g3 g4

/-- C8: starting from the default dimensions, every sequence of the four
resize actions keeps the row count in [1, 1000] and the column count in
[1, 52]; a grow request at the maximum stays at the maximum and a shrink
request at 1 stays at 1 (clamped, not failing). -/
theorem C8_grid_bounds (ops : List GridOp) :
    (1 ≤ (ops.foldl applyGridOp initialState).rows
       ∧ (ops.foldl applyGridOp initialState).rows ≤ (CONFIG.maxRows : Int)
       ∧ 1 ≤ (ops.foldl applyGridOp initialState).cols
       ∧ (ops.foldl applyGridOp initialState).cols ≤ (CONFIG.maxCols : Int))
  ∧ ((applyGridOp { initialState with rows := (CONFIG.maxRows : Int) } .addRow).rows
        = (CONFIG.maxRows : Int)
     ∧ (applyGridOp { initialState with cols := (CONFIG.maxCols : Int) } .addCol).cols
        = (CONFIG.maxCols : Int)
     ∧ (applyGridOp { initialState with rows := 1 } .delRow).rows = 1
     ∧ (applyGridOp { initialState with cols := 1 } .delCol).cols = 1) := by
  refine ⟨foldl_gridOps_inv ops initialState ?_ ?_ ?_ ?_, ?_, ?_, ?_, ?_⟩
  · with_unfolding_all decide
  · with_unfolding_all decide
  · with_unfolding_all decide
  · with_unfolding_all decide
  · with_unfolding_all decide
  · with_unfolding_all decide
  · with_unfolding_all decide
  · with_unfolding_all decide

/-- C9: committing an empty edit keeps (or creates) the cell's entry —
with empty value and empty formula — while the clear operation removes
the mapping entry entirely, so the two are observably different. -/
theorem C9_empty_edit_vs_clear (st : Store) (cellId : List Nat) :
    (∃ cd, lookupCell (finishEditing st cellId []) cellId = some cd
        ∧ cd.value = .str [] ∧ cd.formula = [])
  ∧ lookupCell (deleteCellEdit st cellId) cellId = none := by
  constructor
  · exact ⟨_, finishEditing_nonformula st cellId [] (by decide), rfl, rfl⟩
  · rw [deleteCellEdit]
    apply recalculateAll_lookup_none
    rw [lookupCell_eraseCell, if_pos rfl]

end Numbers
